import Mathlib

/-
Verification of the framing protocol of the express-delivery
identification system.

Sender (Serial_transmission.py): on each detected barcode, the module-level
capture loop rejects codes whose length differs from 13 and codes already in
the dedup list pre_code; otherwise it appends the code to pre_code and writes
the 4-byte little-endian payload size, the compressed-image payload, and the
raw code bytes to the UART.

Receiver (raspi_new.py, OCRThread.run): drains the serial port, reads a
4-byte little-endian length word, accumulates the payload in chunks of at
most min(2048, remaining) bytes under a 5-second wall-clock deadline, then
reads 13 identifier bytes, decodes them as ASCII (a placeholder is
substituted on failure), and dispatches the record downstream.

Bytes are modelled as Nat (values below 256 on real inputs; the arithmetic
of the length word is taken modulo 2^32 exactly where the source truncates).
The serial port is modelled as the list of bytes that the link will deliver
together with a chunking schedule: entry i of the schedule caps how many
bytes the i-th read call returns, which reproduces short reads and arbitrary
fragmentation of the stream across read calls.  Wall-clock time is modelled
by the list of successive clock samples the payload loop observes, together
with the sample taken at the start of the payload phase.
-/

namespace ExpressDelivery

/-- Little-endian 4-byte encoding of a natural number, as produced by
size.to_bytes(4, 'little') on the sender (Serial_transmission.py line 29). -/
def toLE4 (n : Nat) : List Nat :=
  [n % 256, n / 256 % 256, n / 256 ^ 2 % 256, n / 256 ^ 3 % 256]

/-- Little-endian decoding of a 4-byte word, as computed by
int.from_bytes(size_bytes, 'little') on the receiver (raspi_new.py line 41). -/
def fromLE4 (bs : List Nat) : Nat :=
  match bs with
  | [b0, b1, b2, b3] => b0 + 256 * b1 + 65536 * b2 + 16777216 * b3
  | _ => 0

/-- One detected barcode event on the sender: the decoded code bytes and the
compressed-image payload the imaging pipeline derives for it. -/
structure Trig where
  code : List Nat
  payload : List Nat
deriving DecidableEq

/-- The wire bytes of one frame: 4-byte little-endian payload length, the
payload, then the raw identifier bytes (Serial_transmission.py lines 29-33). -/
def frameBytes (payload code : List Nat) : List Nat :=
  toLE4 payload.length ++ (payload ++ code)

/-- One pass of the sender capture loop on a detected barcode
(Serial_transmission.py lines 22-33): the code is rejected when it is already
in pre_code or its length is not 13; otherwise it is appended to pre_code and
the frame bytes are written to the UART as a single ordered sequence. -/
def captureStep (pre_code : List (List Nat)) (t : Trig) :
    List (List Nat) × Option (List Nat) :=
  if t.code ∈ pre_code ∨ t.code.length ≠ 13 then (pre_code, none)
  else (pre_code ++ [t.code], some (frameBytes t.payload t.code))

/-- The subsequence of triggers the sender accepts (and hence transmits a
frame for), threading the pre_code dedup list through the capture loop. -/
def acceptedTrigs : List (List Nat) → List Trig → List Trig
  | _, [] => []
  | pre, t :: ts =>
    if t.code ∈ pre ∨ t.code.length ≠ 13 then acceptedTrigs pre ts
    else t :: acceptedTrigs (pre ++ [t.code]) ts

/-- The receiver side of the serial link: the bytes the link will deliver, in
order, plus a fragmentation schedule.  Entry i caps how many bytes the i-th
read call may return (pyserial read may return fewer bytes than requested);
once the schedule is exhausted every read returns as much as requested. -/
structure Port where
  stream : List Nat
  sched : List Nat
deriving DecidableEq

/-- ser.read(n): returns at most n bytes, consuming them from the stream;
the current schedule entry may force a short read. -/
def serRead (p : Port) (n : Nat) : List Nat × Port :=
  match p.sched with
  | [] => (p.stream.take n, ⟨p.stream.drop n, []⟩)
  | c :: rest => (p.stream.take (min n c), ⟨p.stream.drop (min n c), rest⟩)

/-- Outcome of the payload-accumulation loop (raspi_new.py lines 44-58):
either the buffer reached the target length, or the 5-second deadline fired,
or the finite clock trace of the model was exhausted while the loop was
still polling (`starved` corresponds to no source behaviour: the real loop
would keep polling, so runs of interest never end in it). -/
inductive AccResult where
  | complete (data : List Nat) (p : Port)
  | timeout (buf : List Nat) (p : Port)
  | starved (buf : List Nat) (p : Port)
deriving DecidableEq

/-- The buffer held at the end of the accumulation loop. -/
def AccResult.buf : AccResult → List Nat
  | .complete d _ => d
  | .timeout b _ => b
  | .starved b _ => b

/-- The port state at the end of the accumulation loop. -/
def AccResult.port : AccResult → Port
  | .complete _ p => p
  | .timeout _ p => p
  | .starved _ p => p

/-- The payload-accumulation loop of OCRThread.run (raspi_new.py lines
44-58).  t0 is the clock sample taken at the start of the payload phase
(start_time); times are the successive samples of time.time() the loop
observes, one per iteration.  Each iteration first applies the wall-clock
check time - t0 > 5, then reads at most min(2048, remaining) bytes; an empty
chunk only causes a brief sleep and a retry. -/
def imgDataLoop (t0 imgSize : Nat) : List Nat → List Nat → Port → AccResult
  | times, img_data, p =>
    if img_data.length < imgSize then
      match times with
      | [] => .starved img_data p
      | t :: rest =>
        if t - t0 > 5 then .timeout img_data p
        else
          let remaining := imgSize - img_data.length
          let step := serRead p (min 2048 remaining)
          if step.1.isEmpty then imgDataLoop t0 imgSize rest img_data step.2
          else imgDataLoop t0 imgSize rest (img_data ++ step.1) step.2
    else .complete img_data p

/-- The decoded identifier attached to a dispatched record: either the
ASCII decode of the bytes read, or the placeholder string the receiver
substitutes when decoding raises (raspi_new.py line 69). -/
inductive Waybill where
  | ok (s : List Nat)
  | failed
deriving DecidableEq

/-- bytes.decode(ascii) semantics: succeeds exactly when every byte is
below 128, returning the bytes unchanged. -/
def asciiDecode (bs : List Nat) : Option (List Nat) :=
  if bs.all (fun b => b < 128) then some bs else none

/-- The status and data events OCRThread.run emits through its two Qt
signals, in order of emission. -/
inductive Ev where
  | evSize (n : Nat)
  | evWaybill (s : List Nat)
  | evWaybillErr
  | evTimeout
  | evIncomplete (got target : Nat)
  | evRecord (data : List Nat) (w : Waybill)
  | evImgErr
  | evOcrDone
deriving DecidableEq

/-- The protocol-level handoff of one reassembled frame: the accumulated
payload bytes, the raw bytes returned by the 13-byte identifier read, and
the decoded identifier (or placeholder). -/
abbrev Delivery := List Nat × List Nat × Waybill

/-- One iteration of the outer receive loop of OCRThread.run (raspi_new.py
lines 34-87): poll in_waiting, read the 4-byte length word (a short read is
dropped and the iteration ends), accumulate the payload, and on completion
read and decode the 13 identifier bytes and run the downstream image
pipeline.  imgOk models whether the external image decode (PIL + OpenCV)
succeeds on the given payload bytes; the OCR step itself catches its own
exceptions and never raises.  Returns the port afterwards, the reassembled
delivery if one was produced, and the emitted events. -/
def ocrThreadStep (imgOk : List Nat → Bool) (t0 : Nat) (times : List Nat)
    (p : Port) : Port × Option Delivery × List Ev :=
  if p.stream.isEmpty then (p, none, [])
  else
    let r4 := serRead p 4
    if r4.1.length < 4 then (r4.2, none, [])
    else
      let img_size := fromLE4 r4.1
      match imgDataLoop t0 img_size times [] r4.2 with
      | .complete img_data p2 =>
          let r13 := serRead p2 13
          match asciiDecode r13.1 with
          | some wb =>
              if imgOk img_data then
                (r13.2, some (img_data, r13.1, Waybill.ok wb),
                  [Ev.evSize img_size, Ev.evWaybill wb,
                   Ev.evRecord img_data (Waybill.ok wb), Ev.evOcrDone])
              else
                (r13.2, some (img_data, r13.1, Waybill.ok wb),
                  [Ev.evSize img_size, Ev.evWaybill wb, Ev.evImgErr])
          | none =>
              if imgOk img_data then
                (r13.2, some (img_data, r13.1, Waybill.failed),
                  [Ev.evSize img_size, Ev.evWaybillErr,
                   Ev.evRecord img_data Waybill.failed, Ev.evOcrDone])
              else
                (r13.2, some (img_data, r13.1, Waybill.failed),
                  [Ev.evSize img_size, Ev.evWaybillErr, Ev.evImgErr])
      | .timeout buf p2 =>
          (p2, none, [Ev.evTimeout, Ev.evIncomplete buf.length img_size])
      | .starved _ p2 => (p2, none, [])

/-- Several iterations of the outer receive loop, each with its own payload
phase start sample and clock trace, collecting deliveries and events. -/
def ocrThreadRun (imgOk : List Nat → Bool) :
    List (Nat × List Nat) → Port → Port × List Delivery × List Ev
  | [], p => (p, [], [])
  | (t0, times) :: iters, p =>
      let r := ocrThreadStep imgOk t0 times p
      let rest := ocrThreadRun imgOk iters r.1
      (rest.1, r.2.1.toList ++ rest.2.1, r.2.2 ++ rest.2.2)

/-- How the thread body of OCRThread.run ends: the loop exits normally
because running became false, or a read inside the loop raises a fatal
I/O error. -/
inductive LoopEnd where
  | normalStop
  | ioError
deriving DecidableEq

/-- Top-level status events of OCRThread.run. -/
inductive TopEv where
  | connected
  | portClosedMsg
  | connError
deriving DecidableEq

/-- Outcome of the whole thread body: the top-level status events emitted
and whether ser.close() was executed. -/
structure TopResult where
  events : List TopEv
  portClosed : Bool
deriving DecidableEq

/-- Control-flow skeleton of OCRThread.run (raspi_new.py lines 29-93): the
whole body is one try block; serial.Serial may fail to open, the loop may be
left normally (running = False) followed by ser.close(), or a read may raise,
in which case control jumps to the except handler, which emits the error
status.  The except path does not execute ser.close(). -/
def ocrThreadTop (openOk : Bool) (outcome : LoopEnd) : TopResult :=
  if openOk then
    match outcome with
    | .normalStop => ⟨[TopEv.connected, TopEv.portClosedMsg], true⟩
    | .ioError => ⟨[TopEv.connected, TopEv.connError], false⟩
  else ⟨[TopEv.connError], false⟩

/-! Helper lemmas about the embedding. -/

theorem toLE4_length (n : Nat) : (toLE4 n).length = 4 := rfl

theorem fromLE4_toLE4 (n : Nat) (h : n < 4294967296) :
    fromLE4 (toLE4 n) = n := by
  simp only [toLE4, fromLE4]
  omega

theorem serRead_length_le (p : Port) (n : Nat) : (serRead p n).1.length ≤ n := by
  cases h : p.sched with
  | nil => simp [serRead, h]
  | cons c rest =>
    simp only [serRead, h, List.length_take]
    omega

theorem serRead_eq (p : Port) (n : Nat) :
    ∃ j, (serRead p n).1 = p.stream.take j ∧
      (serRead p n).2.stream = p.stream.drop j := by
  cases h : p.sched with
  | nil => exact ⟨n, by simp [serRead, h]⟩
  | cons c rest => exact ⟨min n c, by simp [serRead, h]⟩

theorem serRead_full (p : Port) (n : Nat) (h : (serRead p n).1.length = n) :
    (serRead p n).1 = p.stream.take n ∧
      (serRead p n).2.stream = p.stream.drop n := by
  obtain ⟨j, h1, h2⟩ := serRead_eq p n
  rw [h1] at h ⊢
  rw [h2]
  rw [List.length_take] at h
  rcases Nat.le_total j p.stream.length with hj | hj
  · have : j = n := by omega
    subst this
    exact ⟨rfl, rfl⟩
  · have hlen : p.stream.length = n := by omega
    constructor
    · rw [List.take_of_length_le hj, List.take_of_length_le (le_of_eq hlen)]
    · rw [List.drop_eq_nil_of_le hj, List.drop_eq_nil_of_le (le_of_eq hlen)]

theorem imgDataLoop_done (t0 target : Nat) (times acc : List Nat) (p : Port)
    (h : ¬ acc.length < target) :
    imgDataLoop t0 target times acc p = .complete acc p := by
  cases times <;> simp [imgDataLoop, h]

theorem imgDataLoop_nil (t0 target : Nat) (acc : List Nat) (p : Port)
    (h : acc.length < target) :
    imgDataLoop t0 target [] acc p = .starved acc p := by
  simp [imgDataLoop, h]

theorem imgDataLoop_tmo (t0 target t : Nat) (rest acc : List Nat) (p : Port)
    (h : acc.length < target) (ht : t - t0 > 5) :
    imgDataLoop t0 target (t :: rest) acc p = .timeout acc p := by
  simp [imgDataLoop, h, ht]

theorem imgDataLoop_cons (t0 target t : Nat) (rest acc : List Nat) (p : Port)
    (h : acc.length < target) (ht : ¬ t - t0 > 5) :
    imgDataLoop t0 target (t :: rest) acc p =
      if (serRead p (min 2048 (target - acc.length))).1.isEmpty then
        imgDataLoop t0 target rest acc
          (serRead p (min 2048 (target - acc.length))).2
      else
        imgDataLoop t0 target rest
          (acc ++ (serRead p (min 2048 (target - acc.length))).1)
          (serRead p (min 2048 (target - acc.length))).2 := by
  simp [imgDataLoop, h, ht]

/-- Bytes flow out of the stream in order: at the end of the accumulation
loop the buffer extends the initial one by a prefix of the stream, and the
stream has been advanced by exactly that prefix. -/
theorem imgDataLoop_consume (t0 target : Nat) :
    ∀ (times acc : List Nat) (p : Port),
    ∃ k, (imgDataLoop t0 target times acc p).buf = acc ++ p.stream.take k ∧
      (imgDataLoop t0 target times acc p).port.stream = p.stream.drop k := by
  intro times
  induction times with
  | nil =>
    intro acc p
    refine ⟨0, ?_⟩
    by_cases h : acc.length < target <;>
      simp [imgDataLoop_done, imgDataLoop_nil, h, AccResult.buf, AccResult.port]
  | cons t rest ih =>
    intro acc p
    by_cases h : acc.length < target
    · by_cases ht : t - t0 > 5
      · refine ⟨0, ?_⟩
        simp [imgDataLoop_tmo t0 target t rest acc p h ht,
          AccResult.buf, AccResult.port]
      · rw [imgDataLoop_cons t0 target t rest acc p h ht]
        obtain ⟨j, hc, hs⟩ :=
          serRead_eq p (min 2048 (target - acc.length))
        by_cases he : (serRead p (min 2048 (target - acc.length))).1.isEmpty
        · rw [if_pos he]
          obtain ⟨k2, hb2, hs2⟩ :=
            ih acc (serRead p (min 2048 (target - acc.length))).2
          rw [hc, List.isEmpty_iff, List.take_eq_nil_iff] at he
          have hdrop : p.stream.drop j = p.stream := by
            rcases he with he | he
            · rw [he, List.drop_zero]
            · rw [he, List.drop_nil]
          exact ⟨k2, by rw [hb2, hs, hdrop], by rw [hs2, hs, hdrop]⟩
        · rw [if_neg he]
          obtain ⟨k2, hb2, hs2⟩ :=
            ih (acc ++ (serRead p (min 2048 (target - acc.length))).1)
              (serRead p (min 2048 (target - acc.length))).2
          refine ⟨j + k2, ?_, ?_⟩
          · rw [hb2, hc, hs, List.take_add, List.append_assoc]
          · rw [hs2, hs, List.drop_drop, Nat.add_comm]
    · refine ⟨0, ?_⟩
      simp [imgDataLoop_done t0 target (t :: rest) acc p h,
        AccResult.buf, AccResult.port]

/-- The accumulation buffer never exceeds the declared target length: each
read requests at most min(2048, remaining) bytes. -/
theorem imgDataLoop_buf_le (t0 target : Nat) :
    ∀ (times acc : List Nat) (p : Port), acc.length ≤ target →
    (imgDataLoop t0 target times acc p).buf.length ≤ target := by
  intro times
  induction times with
  | nil =>
    intro acc p hle
    by_cases h : acc.length < target <;>
      simp [imgDataLoop_done, imgDataLoop_nil, h, AccResult.buf, hle]
  | cons t rest ih =>
    intro acc p hle
    by_cases h : acc.length < target
    · by_cases ht : t - t0 > 5
      · simp [imgDataLoop_tmo t0 target t rest acc p h ht, AccResult.buf, hle]
      · rw [imgDataLoop_cons t0 target t rest acc p h ht]
        by_cases he : (serRead p (min 2048 (target - acc.length))).1.isEmpty
        · rw [if_pos he]
          exact ih acc _ hle
        · rw [if_neg he]
          refine ih _ _ ?_
          have := serRead_length_le p (min 2048 (target - acc.length))
          rw [List.length_append]
          omega
    · simp [imgDataLoop_done t0 target (t :: rest) acc p h, AccResult.buf, hle]

/-- A completed accumulation holds exactly the declared number of bytes. -/
theorem imgDataLoop_complete_len (t0 target : Nat) :
    ∀ (times acc : List Nat) (p : Port) (d : List Nat) (p2 : Port),
    acc.length ≤ target →
    imgDataLoop t0 target times acc p = .complete d p2 →
    d.length = target := by
  intro times
  induction times with
  | nil =>
    intro acc p d p2 hle heq
    by_cases h : acc.length < target
    · rw [imgDataLoop_nil t0 target acc p h] at heq
      exact absurd heq (by simp)
    · rw [imgDataLoop_done t0 target [] acc p h] at heq
      cases heq
      omega
  | cons t rest ih =>
    intro acc p d p2 hle heq
    by_cases h : acc.length < target
    · by_cases ht : t - t0 > 5
      · rw [imgDataLoop_tmo t0 target t rest acc p h ht] at heq
        exact absurd heq (by simp)
      · rw [imgDataLoop_cons t0 target t rest acc p h ht] at heq
        by_cases he : (serRead p (min 2048 (target - acc.length))).1.isEmpty
        · rw [if_pos he] at heq
          exact ih acc _ d p2 hle heq
        · rw [if_neg he] at heq
          refine ih _ _ d p2 ?_ heq
          have := serRead_length_le p (min 2048 (target - acc.length))
          rw [List.length_append]
          omega
    · rw [imgDataLoop_done t0 target (t :: rest) acc p h] at heq
      cases heq
      omega

/-- A timed-out accumulation holds strictly fewer bytes than the target. -/
theorem imgDataLoop_timeout_lt (t0 target : Nat) :
    ∀ (times acc : List Nat) (p : Port) (b : List Nat) (p2 : Port),
    imgDataLoop t0 target times acc p = .timeout b p2 →
    b.length < target := by
  intro times
  induction times with
  | nil =>
    intro acc p b p2 heq
    by_cases h : acc.length < target
    · rw [imgDataLoop_nil t0 target acc p h] at heq
      exact absurd heq (by simp)
    · rw [imgDataLoop_done t0 target [] acc p h] at heq
      exact absurd heq (by simp)
  | cons t rest ih =>
    intro acc p b p2 heq
    by_cases h : acc.length < target
    · by_cases ht : t - t0 > 5
      · rw [imgDataLoop_tmo t0 target t rest acc p h ht] at heq
        cases heq
        exact h
      · rw [imgDataLoop_cons t0 target t rest acc p h ht] at heq
        by_cases he : (serRead p (min 2048 (target - acc.length))).1.isEmpty
        · rw [if_pos he] at heq
          exact ih acc _ b p2 heq
        · rw [if_neg he] at heq
          exact ih _ _ b p2 heq
    · rw [imgDataLoop_done t0 target (t :: rest) acc p h] at heq
      exact absurd heq (by simp)

/-- When every read is served in full (empty schedule) and the stream starts
with the missing part of the payload, the loop completes, consuming exactly
that part, within one clock sample per missing byte (each sample equal to
the phase start, so the deadline never fires). -/
theorem imgDataLoop_full (t0 target : Nat) :
    ∀ (k : Nat) (acc pay rest : List Nat),
    acc.length + pay.length = target → pay.length ≤ k →
    imgDataLoop t0 target (List.replicate k t0) acc ⟨pay ++ rest, []⟩ =
      .complete (acc ++ pay) ⟨rest, []⟩ := by
  intro k
  induction k with
  | zero =>
    intro acc pay rest hlen hk
    have hpay : pay = [] := by
      cases pay with
      | nil => rfl
      | cons a l => simp at hk
    subst hpay
    simp only [List.length_nil, Nat.add_zero] at hlen
    simp only [List.nil_append, List.append_nil]
    rw [List.replicate_zero, imgDataLoop_done t0 target [] acc _ (by omega)]
  | succ k ih =>
    intro acc pay rest hlen hk
    cases pay with
    | nil =>
      simp only [List.length_nil, Nat.add_zero] at hlen
      simp only [List.nil_append, List.append_nil]
      rw [imgDataLoop_done t0 target _ acc _ (by omega)]
    | cons a l =>
      have hlt : acc.length < target := by
        simp only [List.length_cons] at hlen
        omega
      rw [List.replicate_succ,
        imgDataLoop_cons t0 target t0 (List.replicate k t0) acc _ hlt
          (by omega)]
      have hm : min 2048 (target - acc.length) ≤ (a :: l).length := by
        simp only [List.length_cons] at hlen ⊢
        omega
      have hm1 : 1 ≤ min 2048 (target - acc.length) := by
        simp only [List.length_cons] at hlen
        omega
      have hchunk :
          (serRead ⟨(a :: l) ++ rest, []⟩ (min 2048 (target - acc.length))).1 =
            (a :: l).take (min 2048 (target - acc.length)) := by
        simp only [serRead]
        exact List.take_append_of_le_length hm
      have hstream :
          (serRead ⟨(a :: l) ++ rest, []⟩ (min 2048 (target - acc.length))).2 =
            ⟨(a :: l).drop (min 2048 (target - acc.length)) ++ rest, []⟩ := by
        simp only [serRead]
        rw [List.drop_append_of_le_length hm]
      have hne : ¬ (serRead ⟨(a :: l) ++ rest, []⟩
          (min 2048 (target - acc.length))).1.isEmpty := by
        rw [hchunk, List.isEmpty_iff, List.take_eq_nil_iff]
        push_neg
        exact ⟨by omega, by simp⟩
      rw [if_neg hne, hchunk, hstream]
      have hstep := ih (acc ++ (a :: l).take (min 2048 (target - acc.length)))
        ((a :: l).drop (min 2048 (target - acc.length))) rest ?_ ?_
      · rw [hstep, List.append_assoc, List.take_append_drop]
      · rw [List.length_append, List.length_take, List.length_drop]
        simp only [List.length_cons] at hlen ⊢
        omega
      · rw [List.length_drop]
        simp only [List.length_cons] at hk ⊢
        omega

theorem take_exact (l : List Nat) (k n : Nat) (h : (List.take k l).length = n) :
    List.take k l = List.take n l ∧ List.drop k l = List.drop n l := by
  rw [List.length_take] at h
  rcases Nat.le_total k l.length with hk | hk
  · have : k = n := by omega
    subst this
    exact ⟨rfl, rfl⟩
  · have hlen : l.length = n := by omega
    constructor
    · rw [List.take_of_length_le hk, List.take_of_length_le (le_of_eq hlen)]
    · rw [List.drop_eq_nil_of_le hk, List.drop_eq_nil_of_le (le_of_eq hlen)]

/-- Unfolding of the receive-loop iteration when the length read is short:
the bytes returned by the short read are consumed and dropped, no event is
emitted, and the iteration ends back at the length read. -/
theorem ocrThreadStep_short (imgOk : List Nat → Bool) (t0 : Nat)
    (times : List Nat) (p : Port) (hne : p.stream.isEmpty = false)
    (hshort : (serRead p 4).1.length < 4) :
    ocrThreadStep imgOk t0 times p = ((serRead p 4).2, none, []) := by
  simp [ocrThreadStep, hne, hshort]

/-- Unfolding of the receive-loop iteration when the payload phase times
out: only the timeout and incomplete statuses are emitted, nothing further
is read, and no delivery is produced. -/
theorem ocrThreadStep_tmo (imgOk : List Nat → Bool) (t0 : Nat)
    (times : List Nat) (p : Port) (buf : List Nat) (p2 : Port)
    (hne : p.stream.isEmpty = false)
    (hfull : (serRead p 4).1.length = 4)
    (heq : imgDataLoop t0 (fromLE4 (serRead p 4).1) times [] (serRead p 4).2 =
      .timeout buf p2) :
    ocrThreadStep imgOk t0 times p =
      (p2, none, [Ev.evTimeout, Ev.evIncomplete buf.length
        (fromLE4 (serRead p 4).1)]) := by
  have hlt : ¬ (serRead p 4).1.length < 4 := by omega
  simp [ocrThreadStep, hne, hlt, heq]

/-- Delivery produced by the complete branch of the receive-loop iteration:
the accumulated payload, the raw identifier bytes, and their decode (or the
placeholder on failure). -/
theorem ocrThreadStep_complete_delivery (imgOk : List Nat → Bool) (t0 : Nat)
    (times : List Nat) (p : Port) (img : List Nat) (p2 : Port)
    (hne : ¬ p.stream.isEmpty = true)
    (hlt : ¬ (serRead p 4).1.length < 4)
    (hM : imgDataLoop t0 (fromLE4 (serRead p 4).1) times [] (serRead p 4).2 =
      .complete img p2) :
    (ocrThreadStep imgOk t0 times p).2.1 =
      some (img, (serRead p2 13).1,
        match asciiDecode (serRead p2 13).1 with
        | some wb => Waybill.ok wb
        | none => Waybill.failed) := by
  cases hdec : asciiDecode (serRead p2 13).1 <;> cases himg : imgOk img <;>
    simp [ocrThreadStep, hne, hlt, hM, hdec, himg]

/-- Inversion of a receive-loop iteration that produced a delivery: the
length read returned in full, the accumulation completed with exactly the
declared number of bytes, and the delivered identifier field is the decode
of the bytes returned by the 13-byte read. -/
theorem ocrThreadStep_some_inv (imgOk : List Nat → Bool) (t0 : Nat)
    (times : List Nat) (p : Port) (d : Delivery)
    (h : (ocrThreadStep imgOk t0 times p).2.1 = some d) :
    p.stream.isEmpty = false ∧ (serRead p 4).1.length = 4 ∧
    ∃ p2, imgDataLoop t0 (fromLE4 (serRead p 4).1) times [] (serRead p 4).2 =
        .complete d.1 p2 ∧
      d.2.1 = (serRead p2 13).1 ∧
      d.2.2 = (match asciiDecode (serRead p2 13).1 with
        | some wb => Waybill.ok wb
        | none => Waybill.failed) := by
  by_cases hne : p.stream.isEmpty
  · simp [ocrThreadStep, hne] at h
  · by_cases hlt : (serRead p 4).1.length < 4
    · simp [ocrThreadStep, hne, hlt] at h
    · refine ⟨by simp [hne], ?_, ?_⟩
      · have := serRead_length_le p 4
        omega
      · cases hM : imgDataLoop t0 (fromLE4 (serRead p 4).1) times []
          (serRead p 4).2 with
        | complete img p2 =>
          have hd := ocrThreadStep_complete_delivery imgOk t0 times p img p2
            hne hlt hM
          rw [h] at hd
          have hd2 := Option.some.inj hd
          subst hd2
          exact ⟨p2, rfl, rfl, rfl⟩
        | timeout buf p2 => simp [ocrThreadStep, hne, hlt, hM] at h
        | starved buf p2 => simp [ocrThreadStep, hne, hlt, hM] at h

/-- Inversion of a receive-loop iteration that emitted the timeout status:
the iteration is exactly a timeout abort. -/
theorem ocrThreadStep_timeout_inv (imgOk : List Nat → Bool) (t0 : Nat)
    (times : List Nat) (p : Port)
    (htm : Ev.evTimeout ∈ (ocrThreadStep imgOk t0 times p).2.2) :
    p.stream.isEmpty = false ∧ (serRead p 4).1.length = 4 ∧
    ∃ buf p2,
      imgDataLoop t0 (fromLE4 (serRead p 4).1) times [] (serRead p 4).2 =
        .timeout buf p2 ∧
      ocrThreadStep imgOk t0 times p =
        (p2, none, [Ev.evTimeout, Ev.evIncomplete buf.length
          (fromLE4 (serRead p 4).1)]) := by
  by_cases hne : p.stream.isEmpty
  · simp [ocrThreadStep, hne] at htm
  · by_cases hlt : (serRead p 4).1.length < 4
    · simp [ocrThreadStep, hne, hlt] at htm
    · refine ⟨by simp [hne], ?_, ?_⟩
      · have := serRead_length_le p 4
        omega
      · cases hM : imgDataLoop t0 (fromLE4 (serRead p 4).1) times []
          (serRead p 4).2 with
        | complete img p2 =>
          cases hdec : asciiDecode (serRead p2 13).1 with
          | some wb =>
            cases himg : imgOk img <;>
              simp [ocrThreadStep, hne, hlt, hM, hdec, himg] at htm
          | none =>
            cases himg : imgOk img <;>
              simp [ocrThreadStep, hne, hlt, hM, hdec, himg] at htm
        | timeout buf p2 =>
          exact ⟨buf, p2, rfl, by simp [ocrThreadStep, hne, hlt, hM]⟩
        | starved buf p2 => simp [ocrThreadStep, hne, hlt, hM] at htm

/-- A delivered frame is a pure function of the stream contents: the payload
is the declared number of bytes following the 4-byte length word, and the
identifier field is the decode of the 13 bytes after the payload (provided
the identifier read returned in full). -/
theorem ocrThreadStep_delivery_char (imgOk : List Nat → Bool) (t0 : Nat)
    (times : List Nat) (p : Port) (d : Delivery)
    (h : (ocrThreadStep imgOk t0 times p).2.1 = some d)
    (hid : d.2.1.length = 13) :
    d = ((p.stream.drop 4).take (fromLE4 (p.stream.take 4)),
      ((p.stream.drop 4).drop (fromLE4 (p.stream.take 4))).take 13,
      match asciiDecode
        (((p.stream.drop 4).drop (fromLE4 (p.stream.take 4))).take 13) with
      | some wb => Waybill.ok wb
      | none => Waybill.failed) := by
  obtain ⟨hne, hfull, p2, hM, hraw, hdec⟩ :=
    ocrThreadStep_some_inv imgOk t0 times p d h
  obtain ⟨h41, h42⟩ := serRead_full p 4 hfull
  rw [h41] at hM
  obtain ⟨k, hbuf, hstr⟩ := imgDataLoop_consume t0 (fromLE4 (p.stream.take 4))
    times [] (serRead p 4).2
  rw [hM] at hbuf hstr
  simp only [AccResult.buf, AccResult.port, List.nil_append] at hbuf hstr
  have hlen : d.1.length = fromLE4 (p.stream.take 4) :=
    imgDataLoop_complete_len t0 (fromLE4 (p.stream.take 4)) times []
      (serRead p 4).2 d.1 p2 (by simp) hM
  rw [hbuf] at hlen
  obtain ⟨htk, hdk⟩ := take_exact (serRead p 4).2.stream k
    (fromLE4 (p.stream.take 4)) hlen
  rw [htk] at hbuf
  rw [hdk] at hstr
  rw [h42] at hbuf hstr
  rw [hraw] at hid
  obtain ⟨h131, _⟩ := serRead_full p2 13 hid
  rw [hstr] at h131
  obtain ⟨d1, d2, d3⟩ := d
  simp only at hbuf hraw hdec hid ⊢
  rw [hbuf, hraw, h131, hdec, h131]

/-- Counting lemma for the sender capture loop: a code is transmitted exactly
once when it qualifies (length 13, not already in the dedup list) and occurs
among the triggers, and never otherwise. -/
theorem acceptedTrigs_count :
    ∀ (ts : List Trig) (pre : List (List Nat)) (c : List Nat),
    ((acceptedTrigs pre ts).map Trig.code).count c =
      if c.length = 13 ∧ c ∉ pre ∧ c ∈ ts.map Trig.code then 1 else 0 := by
  intro ts
  induction ts with
  | nil =>
    intro pre c
    simp [acceptedTrigs]
  | cons t rest ih =>
    intro pre c
    by_cases hrej : t.code ∈ pre ∨ t.code.length ≠ 13
    · rw [show acceptedTrigs pre (t :: rest) = acceptedTrigs pre rest from by
        simp [acceptedTrigs, hrej]]
      rw [ih pre c]
      by_cases hc : c = t.code
      · subst hc
        rcases hrej with hin | hlen
        · simp [hin]
        · simp [hlen]
      · simp [List.map_cons, List.mem_cons, hc]
    · push_neg at hrej
      obtain ⟨hnotin, hlen13⟩ := hrej
      rw [show acceptedTrigs pre (t :: rest) =
          t :: acceptedTrigs (pre ++ [t.code]) rest from by
        simp [acceptedTrigs, hnotin, hlen13]]
      rw [List.map_cons, List.count_cons, ih (pre ++ [t.code]) c]
      by_cases hc : c = t.code
      · subst hc
        simp [hlen13, hnotin, List.mem_append]
      · have hct : ¬ t.code = c := fun h => hc h.symm
        by_cases hlc : c.length = 13 <;> by_cases hpc : c ∈ pre <;>
          by_cases hrc : c ∈ rest.map Trig.code <;>
          simp [hlc, hpc, hrc, hc, hct, List.mem_append, List.map_cons,
            List.mem_cons]

/-! Claim theorems. -/

/-- Claim C1, counterexample: the round-trip claim fails as stated for a
13-byte identifier that is not ASCII-decodable.  Framing payload [7] with
the identifier 13 x 200 and reassembling the stream does not yield that
identifier back: the receiver substitutes the placeholder instead. -/
theorem C1_counterexample :
    ¬ ((ocrThreadStep (fun _ => true) 0 (List.replicate 1 0)
        ⟨frameBytes [7]
          [200, 200, 200, 200, 200, 200, 200, 200, 200, 200, 200, 200, 200],
          []⟩).2.1 =
      some ([7],
        [200, 200, 200, 200, 200, 200, 200, 200, 200, 200, 200, 200, 200],
        Waybill.ok
          [200, 200, 200, 200, 200, 200, 200, 200, 200, 200, 200, 200, 200])) := by
  decide

/-- Claim C1 (amended): for every payload P below the 2^32 length bound and
every 13-byte identifier I all of whose bytes are ASCII (below 128), framing
P and I as the sender does and running the receiver reassembly on the
resulting byte stream yields back exactly the pair (P, I).  The ASCII
restriction is forced by the counterexample: the receiver decodes the
identifier as ASCII and substitutes a placeholder when that fails. -/
theorem C1_roundtrip (imgOk : List Nat → Bool) (t0 : Nat) (P I : List Nat)
    (hI : I.length = 13) (hascii : I.all (fun b => b < 128) = true)
    (hP : P.length < 4294967296) :
    (ocrThreadStep imgOk t0 (List.replicate P.length t0)
      ⟨frameBytes P I, []⟩).2.1 = some (P, I, Waybill.ok I) := by
  have hne : ¬ ((⟨frameBytes P I, []⟩ : Port).stream.isEmpty = true) := by
    simp [frameBytes, toLE4]
  have h4 : serRead (⟨frameBytes P I, []⟩ : Port) 4 =
      (toLE4 P.length, ⟨P ++ I, []⟩) := by
    simp only [serRead, frameBytes]
    rw [List.take_append_of_le_length (by rw [toLE4_length]),
      List.take_of_length_le (le_of_eq (toLE4_length P.length)),
      List.drop_append_of_le_length (by rw [toLE4_length]),
      List.drop_eq_nil_of_le (le_of_eq (toLE4_length P.length))]
    simp
  have hlt : ¬ ((serRead (⟨frameBytes P I, []⟩ : Port) 4).1.length < 4) := by
    rw [h4, toLE4_length]
    omega
  have hsize : fromLE4 (serRead (⟨frameBytes P I, []⟩ : Port) 4).1 = P.length := by
    rw [h4]
    exact fromLE4_toLE4 P.length hP
  have hM : imgDataLoop t0
      (fromLE4 (serRead (⟨frameBytes P I, []⟩ : Port) 4).1)
      (List.replicate P.length t0) []
      (serRead (⟨frameBytes P I, []⟩ : Port) 4).2 =
      .complete P ⟨I, []⟩ := by
    rw [hsize, h4]
    have := imgDataLoop_full t0 P.length P.length [] P I (by simp) le_rfl
    simpa using this
  have hd := ocrThreadStep_complete_delivery imgOk t0
    (List.replicate P.length t0) ⟨frameBytes P I, []⟩ P ⟨I, []⟩ hne hlt hM
  have h13 : serRead (⟨I, []⟩ : Port) 13 = (I, ⟨[], []⟩) := by
    simp only [serRead]
    rw [List.take_of_length_le (le_of_eq hI),
      List.drop_eq_nil_of_le (le_of_eq hI)]
  have hdec : asciiDecode I = some I := by
    simp [asciiDecode, List.all_eq_true] at hascii ⊢
    exact hascii
  rw [hd, h13, hdec]

/-- Claim C1, witness for the amended round trip at a concrete frame. -/
theorem C1_roundtrip_witness :
    (ocrThreadStep (fun _ => true) 0 (List.replicate 3 0)
      ⟨frameBytes [7, 8, 9]
        [48, 49, 50, 51, 52, 53, 54, 55, 56, 57, 48, 49, 50], []⟩).2.1 =
      some ([7, 8, 9],
        [48, 49, 50, 51, 52, 53, 54, 55, 56, 57, 48, 49, 50],
        Waybill.ok [48, 49, 50, 51, 52, 53, 54, 55, 56, 57, 48, 49, 50]) :=
  C1_roundtrip (fun _ => true) 0 [7, 8, 9]
    [48, 49, 50, 51, 52, 53, 54, 55, 56, 57, 48, 49, 50]
    (by decide) (by decide) (by decide)

/-- Claim C2, counterexample: reassembly output is not identical for every
two chunkings of the same frame byte sequence.  With full reads the frame
for payload [7] is delivered; with a chunking whose first length read
returns only 2 bytes, those bytes are dropped, the stream desynchronises,
and no delivery is produced. -/
theorem C2_counterexample :
    ¬ ((ocrThreadRun (fun _ => true) [(0, [0]), (0, [0, 6])]
        ⟨frameBytes [7] [48, 49, 50, 51, 52, 53, 54, 55, 56, 57, 48, 49, 50],
          []⟩).2.1 =
      (ocrThreadRun (fun _ => true) [(0, [0]), (0, [0, 6])]
        ⟨frameBytes [7] [48, 49, 50, 51, 52, 53, 54, 55, 56, 57, 48, 49, 50],
          [2]⟩).2.1) := by
  decide

/-- Claim C2 (amended): reassembly output is identical across chunkings
provided each chunking lets the exact-count reads complete: whenever two
iterations over the same stream contents both produce a delivery and in both
the 13-byte identifier read returned in full, the deliveries are equal
(payload bytes, raw identifier bytes and decoded identifier all agree),
regardless of how the payload phase was fragmented.  The proviso is forced
by the counterexample: a short length read desynchronises the stream. -/
theorem C2_fragmentation (imgOk1 imgOk2 : List Nat → Bool) (t01 t02 : Nat)
    (ts1 ts2 : List Nat) (stream s1 s2 : List Nat) (d1 d2 : Delivery)
    (h1 : (ocrThreadStep imgOk1 t01 ts1 ⟨stream, s1⟩).2.1 = some d1)
    (h2 : (ocrThreadStep imgOk2 t02 ts2 ⟨stream, s2⟩).2.1 = some d2)
    (hid1 : d1.2.1.length = 13) (hid2 : d2.2.1.length = 13) :
    d1 = d2 := by
  rw [ocrThreadStep_delivery_char imgOk1 t01 ts1 ⟨stream, s1⟩ d1 h1 hid1,
    ocrThreadStep_delivery_char imgOk2 t02 ts2 ⟨stream, s2⟩ d2 h2 hid2]

/-- Claim C2, witness: a full-read chunking and a 4/1/13 chunking of the
same frame produce the same delivery. -/
theorem C2_fragmentation_witness :
    (([7], [48, 49, 50, 51, 52, 53, 54, 55, 56, 57, 48, 49, 50],
      Waybill.ok [48, 49, 50, 51, 52, 53, 54, 55, 56, 57, 48, 49, 50]) :
      Delivery) =
    ([7], [48, 49, 50, 51, 52, 53, 54, 55, 56, 57, 48, 49, 50],
      Waybill.ok [48, 49, 50, 51, 52, 53, 54, 55, 56, 57, 48, 49, 50]) :=
  C2_fragmentation (fun _ => true) (fun _ => true) 0 0 [0] [0]
    (frameBytes [7] [48, 49, 50, 51, 52, 53, 54, 55, 56, 57, 48, 49, 50])
    [] [4, 1, 13]
    ([7], [48, 49, 50, 51, 52, 53, 54, 55, 56, 57, 48, 49, 50],
      Waybill.ok [48, 49, 50, 51, 52, 53, 54, 55, 56, 57, 48, 49, 50])
    ([7], [48, 49, 50, 51, 52, 53, 54, 55, 56, 57, 48, 49, 50],
      Waybill.ok [48, 49, 50, 51, 52, 53, 54, 55, 56, 57, 48, 49, 50])
    (by decide) (by decide) (by decide) (by decide)

/-- Claim C3: the payload deadline is a wall-clock deadline measured from
the start of the payload phase.  First part: whatever the accumulation state
and however many bytes the port still holds (bytes may still be arriving),
as soon as a clock sample exceeds the phase start by more than 5 seconds
while the buffer is below target, the loop aborts with a timeout holding the
current buffer.  Second part: on such a timeout the iteration emits exactly
the timeout status and the incomplete status, discards the partial buffer
(no delivery), and leaves the port at the abort position, so the next
iteration starts over at a fresh 4-byte length read. -/
theorem C3_wallclock_timeout :
    (∀ (t0 target t : Nat) (rest acc : List Nat) (p : Port),
      acc.length < target → t - t0 > 5 →
      imgDataLoop t0 target (t :: rest) acc p = .timeout acc p)
    ∧ (∀ (imgOk : List Nat → Bool) (t0 : Nat) (times : List Nat) (p : Port)
        (buf : List Nat) (p2 : Port),
      p.stream.isEmpty = false → (serRead p 4).1.length = 4 →
      imgDataLoop t0 (fromLE4 (serRead p 4).1) times [] (serRead p 4).2 =
        .timeout buf p2 →
      ocrThreadStep imgOk t0 times p =
        (p2, none,
          [Ev.evTimeout, Ev.evIncomplete buf.length
            (fromLE4 (serRead p 4).1)])) :=
  ⟨fun t0 target t rest acc p h ht =>
      imgDataLoop_tmo t0 target t rest acc p h ht,
    fun imgOk t0 times p buf p2 hne hfull heq =>
      ocrThreadStep_tmo imgOk t0 times p buf p2 hne hfull heq⟩

/-- Claim C3, witness: a concrete dribbling frame aborted by the wall-clock
deadline. -/
theorem C3_wallclock_timeout_witness :
    imgDataLoop 0 5 [7] [] ⟨[1, 2, 3], []⟩ = .timeout [] ⟨[1, 2, 3], []⟩ ∧
    ocrThreadStep (fun _ => true) 0 [9] ⟨toLE4 3 ++ [1], []⟩ =
      (⟨[1], []⟩, none, [Ev.evTimeout, Ev.evIncomplete 0 3]) := by
  constructor
  · exact C3_wallclock_timeout.1 0 5 7 [] [] ⟨[1, 2, 3], []⟩
      (by decide) (by decide)
  · exact C3_wallclock_timeout.2 (fun _ => true) 0 [9] ⟨toLE4 3 ++ [1], []⟩
      [] ⟨[1], []⟩ (by decide) (by decide) (by decide)

/-- Claim C4: the sender transmits a frame for a candidate identifier
exactly when its length is 13 and it was not transmitted before.  First
part: one capture step emits a frame iff the code has length 13 and is not
in the dedup list.  Second part: a code of length other than 13 is never
transmitted.  Third part: over any trigger sequence, a qualifying code that
occurs among the triggers is transmitted exactly once (dedup idempotence),
however often it is presented. -/
theorem C4_dedup_filter :
    (∀ (pre : List (List Nat)) (t : Trig),
      ((captureStep pre t).2).isSome = true ↔
        (t.code.length = 13 ∧ t.code ∉ pre))
    ∧ (∀ (ts : List Trig) (c : List Nat), c.length ≠ 13 →
        ((acceptedTrigs [] ts).map Trig.code).count c = 0)
    ∧ (∀ (ts : List Trig) (c : List Nat), c.length = 13 →
        ((acceptedTrigs [] ts).map Trig.code).count c =
          if c ∈ ts.map Trig.code then 1 else 0) := by
  refine ⟨?_, ?_, ?_⟩
  · intro pre t
    by_cases h : t.code ∈ pre ∨ t.code.length ≠ 13 <;>
      simp [captureStep, h] <;> tauto
  · intro ts c hlen
    rw [acceptedTrigs_count ts [] c]
    simp [hlen]
  · intro ts c hlen
    rw [acceptedTrigs_count ts [] c]
    simp [hlen]

/-- Claim C4, witness: presenting the same qualifying identifier twice
yields exactly one frame, and a short identifier is never transmitted. -/
theorem C4_dedup_filter_witness :
    ((acceptedTrigs []
      [⟨[48, 49, 50, 51, 52, 53, 54, 55, 56, 57, 48, 49, 50], [1]⟩,
        ⟨[48, 49, 50, 51, 52, 53, 54, 55, 56, 57, 48, 49, 50], [2]⟩]).map
      Trig.code).count
        [48, 49, 50, 51, 52, 53, 54, 55, 56, 57, 48, 49, 50] = 1 ∧
    ((acceptedTrigs [] [⟨[48], [1]⟩]).map Trig.code).count [48] = 0 := by
  constructor
  · rw [C4_dedup_filter.2.2
      [⟨[48, 49, 50, 51, 52, 53, 54, 55, 56, 57, 48, 49, 50], [1]⟩,
        ⟨[48, 49, 50, 51, 52, 53, 54, 55, 56, 57, 48, 49, 50], [2]⟩]
      [48, 49, 50, 51, 52, 53, 54, 55, 56, 57, 48, 49, 50] (by decide)]
    decide
  · exact C4_dedup_filter.2.1 [⟨[48], [1]⟩] [48] (by decide)

/-- Claim C5: on an accepted trigger the sender inserts the code into the
dedup list and emits, as one contiguous ordered byte sequence, the 4-byte
little-endian length word, the full payload, then the raw identifier bytes;
the length word decodes back to the exact byte count of the payload. -/
theorem C5_frame_write (pre : List (List Nat)) (code payload : List Nat)
    (h13 : code.length = 13) (hnew : code ∉ pre)
    (hsz : payload.length < 4294967296) :
    captureStep pre ⟨code, payload⟩ =
      (pre ++ [code], some (toLE4 payload.length ++ (payload ++ code)))
    ∧ fromLE4 (toLE4 payload.length) = payload.length := by
  constructor
  · simp [captureStep, frameBytes, hnew, h13]
  · exact fromLE4_toLE4 payload.length hsz

/-- Claim C5, witness at a concrete accepted trigger. -/
theorem C5_frame_write_witness :
    captureStep [] ⟨[48, 49, 50, 51, 52, 53, 54, 55, 56, 57, 48, 49, 50],
        [7, 8]⟩ =
      ([[48, 49, 50, 51, 52, 53, 54, 55, 56, 57, 48, 49, 50]],
        some (toLE4 2 ++
          ([7, 8] ++ [48, 49, 50, 51, 52, 53, 54, 55, 56, 57, 48, 49, 50])))
    ∧ fromLE4 (toLE4 2) = 2 :=
  C5_frame_write [] [48, 49, 50, 51, 52, 53, 54, 55, 56, 57, 48, 49, 50]
    [7, 8] (by decide) (by decide) (by decide)

/-- Full unfolding of the receive-loop iteration in the complete branch when
the identifier decode fails: the payload is kept, the placeholder is
substituted, and the record is dispatched exactly when the downstream image
pipeline succeeds. -/
theorem ocrThreadStep_complete_bad (imgOk : List Nat → Bool) (t0 : Nat)
    (times : List Nat) (p : Port) (img : List Nat) (p2 : Port)
    (hne : ¬ p.stream.isEmpty = true)
    (hlt : ¬ (serRead p 4).1.length < 4)
    (hM : imgDataLoop t0 (fromLE4 (serRead p 4).1) times [] (serRead p 4).2 =
      .complete img p2)
    (hdec : asciiDecode (serRead p2 13).1 = none) :
    ocrThreadStep imgOk t0 times p =
      ((serRead p2 13).2, some (img, (serRead p2 13).1, Waybill.failed),
        if imgOk img then
          [Ev.evSize (fromLE4 (serRead p 4).1), Ev.evWaybillErr,
            Ev.evRecord img Waybill.failed, Ev.evOcrDone]
        else
          [Ev.evSize (fromLE4 (serRead p 4).1), Ev.evWaybillErr,
            Ev.evImgErr]) := by
  cases himg : imgOk img <;> simp [ocrThreadStep, hne, hlt, hM, hdec, himg]

/-- Claim C6: a payload-complete frame whose trailing identifier bytes fail
to decode is not dropped: the delivered identifier field is the placeholder,
the identifier decode-error status is emitted, and, whenever the downstream
image pipeline accepts the payload, a record carrying that payload and the
placeholder identifier is still dispatched. -/
theorem C6_identifier_resilience (imgOk : List Nat → Bool) (t0 : Nat)
    (times : List Nat) (p : Port) (d : Delivery)
    (hd : (ocrThreadStep imgOk t0 times p).2.1 = some d)
    (hbad : asciiDecode d.2.1 = none) :
    d.2.2 = Waybill.failed ∧
    Ev.evWaybillErr ∈ (ocrThreadStep imgOk t0 times p).2.2 ∧
    (imgOk d.1 = true →
      Ev.evRecord d.1 Waybill.failed ∈ (ocrThreadStep imgOk t0 times p).2.2) := by
  obtain ⟨hne, hfull, p2, hM, hraw, hdec⟩ :=
    ocrThreadStep_some_inv imgOk t0 times p d hd
  rw [hraw] at hbad
  have hne2 : ¬ p.stream.isEmpty = true := by rw [hne]; simp
  have hlt : ¬ (serRead p 4).1.length < 4 := by omega
  have hstep := ocrThreadStep_complete_bad imgOk t0 times p d.1 p2
    hne2 hlt hM hbad
  refine ⟨by rw [hdec, hbad], ?_, ?_⟩
  · rw [hstep]
    cases himg : imgOk d.1 <;> simp [himg]
  · intro himg
    rw [hstep]
    simp [himg]

/-- Claim C6, witness at a concrete frame whose identifier bytes are not
ASCII-decodable. -/
theorem C6_identifier_resilience_witness :
    (([7], [200, 200, 200, 200, 200, 200, 200, 200, 200, 200, 200, 200, 200],
        Waybill.failed) : Delivery).2.2 = Waybill.failed ∧
    Ev.evWaybillErr ∈ (ocrThreadStep (fun _ => true) 0 [0]
      ⟨frameBytes [7]
        [200, 200, 200, 200, 200, 200, 200, 200, 200, 200, 200, 200, 200],
        []⟩).2.2 ∧
    ((fun (_ : List Nat) => true) [7] = true →
      Ev.evRecord [7] Waybill.failed ∈ (ocrThreadStep (fun _ => true) 0 [0]
        ⟨frameBytes [7]
          [200, 200, 200, 200, 200, 200, 200, 200, 200, 200, 200, 200, 200],
          []⟩).2.2) :=
  C6_identifier_resilience (fun _ => true) 0 [0]
    ⟨frameBytes [7]
      [200, 200, 200, 200, 200, 200, 200, 200, 200, 200, 200, 200, 200], []⟩
    ([7], [200, 200, 200, 200, 200, 200, 200, 200, 200, 200, 200, 200, 200],
      Waybill.failed)
    (by decide) (by decide)

/-- Claim C7, counterexample: after a short length read the stream is not
parsed as if the correct length prefix had been read.  Over the same frame
bytes, a run whose first length read returns only 3 bytes produces no
delivery (the dropped bytes desynchronise the stream), while the full-read
run delivers the frame. -/
theorem C7_counterexample :
    ¬ ((ocrThreadRun (fun _ => true) [(0, [0]), (0, [0, 6])]
        ⟨frameBytes [9, 9]
          [65, 66, 67, 68, 69, 70, 71, 72, 73, 74, 75, 76, 77], [3]⟩).2.1 =
      (ocrThreadRun (fun _ => true) [(0, [0]), (0, [0, 6])]
        ⟨frameBytes [9, 9]
          [65, 66, 67, 68, 69, 70, 71, 72, 73, 74, 75, 76, 77], []⟩).2.1) := by
  decide

/-- Claim C7 (amended): a short length read does not advance the receiver to
the payload phase: the iteration ends with no event and no delivery, and the
next iteration starts over at a fresh 4-byte length read.  However, the
bytes returned by the short read are consumed and dropped, so the retried
length read starts after them: the short read is not recoverable in terms of
stream position, as the counterexample shows. -/
theorem C7_short_read (imgOk : List Nat → Bool) (t0 : Nat) (times : List Nat)
    (p : Port) (hne : p.stream.isEmpty = false)
    (hshort : (serRead p 4).1.length < 4) :
    ocrThreadStep imgOk t0 times p = ((serRead p 4).2, none, []) ∧
    (serRead p 4).2.stream = p.stream.drop (serRead p 4).1.length := by
  refine ⟨ocrThreadStep_short imgOk t0 times p hne hshort, ?_⟩
  obtain ⟨j, h1, h2⟩ := serRead_eq p 4
  rw [h2, h1, List.length_take]
  rcases Nat.le_total j p.stream.length with hj | hj
  · rw [Nat.min_eq_left hj]
  · rw [Nat.min_eq_right hj, List.drop_eq_nil_of_le hj,
      List.drop_eq_nil_of_le le_rfl]

/-- Claim C7, witness at a concrete short length read. -/
theorem C7_short_read_witness :
    ocrThreadStep (fun _ => true) 0 [0] ⟨[1, 0, 0, 0, 7], [2]⟩ =
      ((serRead ⟨[1, 0, 0, 0, 7], [2]⟩ 4).2, none, []) ∧
    (serRead ⟨[1, 0, 0, 0, 7], [2]⟩ 4).2.stream =
      [1, 0, 0, 0, 7].drop (serRead ⟨[1, 0, 0, 0, 7], [2]⟩ 4).1.length :=
  C7_short_read (fun _ => true) 0 [0] ⟨[1, 0, 0, 0, 7], [2]⟩
    (by decide) (by decide)

/-- Claim C8: the thread body escalates link failures and terminates.  The
evaluation shows the divergence from the claim: when a read raises a fatal
I/O error after a successful open, the error status is emitted and the loop
terminates, but control jumps past ser.close(), so the port is NOT released
(portClosed is false); only the normal stop path closes the port.  The open
failure path emits the error with no port to release. -/
theorem C8_link_failure :
    ocrThreadTop true LoopEnd.ioError =
      ⟨[TopEv.connected, TopEv.connError], false⟩ ∧
    ocrThreadTop false LoopEnd.ioError = ⟨[TopEv.connError], false⟩ ∧
    ocrThreadTop true LoopEnd.normalStop =
      ⟨[TopEv.connected, TopEv.portClosedMsg], true⟩ := by
  decide

/-- Claim C9: the accumulation buffer never exceeds the declared target
length at any point of the payload phase (every reachable loop state is an
admissible starting state of the first part), and a frame is delivered only
with a payload of exactly the declared length. -/
theorem C9_exact_length :
    (∀ (t0 target : Nat) (times acc : List Nat) (p : Port),
      acc.length ≤ target →
      (imgDataLoop t0 target times acc p).buf.length ≤ target)
    ∧ (∀ (imgOk : List Nat → Bool) (t0 : Nat) (times : List Nat) (p : Port)
        (d : Delivery),
      (ocrThreadStep imgOk t0 times p).2.1 = some d →
      d.1.length = fromLE4 (serRead p 4).1) := by
  constructor
  · exact fun t0 target => imgDataLoop_buf_le t0 target
  · intro imgOk t0 times p d h
    obtain ⟨hne, hfull, p2, hM, _, _⟩ :=
      ocrThreadStep_some_inv imgOk t0 times p d h
    exact imgDataLoop_complete_len t0 (fromLE4 (serRead p 4).1) times []
      (serRead p 4).2 d.1 p2 (by simp) hM

/-- Claim C9, witness: a concrete bound on the buffer and a concrete
delivered frame of exactly the declared length. -/
theorem C9_exact_length_witness :
    (imgDataLoop 0 2 [0, 0] [] ⟨[9, 9, 9], []⟩).buf.length ≤ 2 ∧
    (([9, 9], [65, 66, 67, 68, 69, 70, 71, 72, 73, 74, 75, 76, 77],
        Waybill.ok [65, 66, 67, 68, 69, 70, 71, 72, 73, 74, 75, 76, 77]) :
        Delivery).1.length =
      fromLE4 (serRead ⟨frameBytes [9, 9]
        [65, 66, 67, 68, 69, 70, 71, 72, 73, 74, 75, 76, 77], []⟩ 4).1 := by
  constructor
  · exact C9_exact_length.1 0 2 [0, 0] [] ⟨[9, 9, 9], []⟩ (by decide)
  · exact C9_exact_length.2 (fun _ => true) 0 (List.replicate 2 0)
      ⟨frameBytes [9, 9] [65, 66, 67, 68, 69, 70, 71, 72, 73, 74, 75, 76, 77],
        []⟩
      ([9, 9], [65, 66, 67, 68, 69, 70, 71, 72, 73, 74, 75, 76, 77],
        Waybill.ok [65, 66, 67, 68, 69, 70, 71, 72, 73, 74, 75, 76, 77])
      (by decide)

/-- Claim C10: when the payload phase of a well-formed frame times out, the
iteration reads no identifier bytes and emits no record: the events are
exactly the timeout and incomplete statuses, the delivery is none, and the
remaining payload bytes together with the identifier bytes and everything
after them are left unconsumed in the stream, from which the next iteration
reads a fresh 4-byte length word. -/
theorem C10_timeout_leftover (imgOk : List Nat → Bool) (t0 : Nat)
    (times : List Nat) (n : Nat) (P I more sched : List Nat)
    (p2 : Port) (dopt : Option Delivery) (evs : List Ev)
    (hP : P.length = n) (hn : n < 4294967296)
    (hrun : ocrThreadStep imgOk t0 times
      ⟨toLE4 n ++ (P ++ (I ++ more)), sched⟩ = (p2, dopt, evs))
    (htm : Ev.evTimeout ∈ evs) :
    dopt = none ∧
    ∃ k, k < n ∧ evs = [Ev.evTimeout, Ev.evIncomplete k n] ∧
      p2.stream = P.drop k ++ (I ++ more) := by
  have htm2 : Ev.evTimeout ∈ (ocrThreadStep imgOk t0 times
      ⟨toLE4 n ++ (P ++ (I ++ more)), sched⟩).2.2 := by
    rw [hrun]
    exact htm
  obtain ⟨hne, hfull, buf, p2x, hM, hstep⟩ :=
    ocrThreadStep_timeout_inv imgOk t0 times
      ⟨toLE4 n ++ (P ++ (I ++ more)), sched⟩ htm2
  obtain ⟨h41, h42⟩ :=
    serRead_full ⟨toLE4 n ++ (P ++ (I ++ more)), sched⟩ 4 hfull
  have h4take : (toLE4 n ++ (P ++ (I ++ more))).take 4 = toLE4 n := by
    rw [List.take_append_of_le_length (by rw [toLE4_length]),
      List.take_of_length_le (le_of_eq (toLE4_length n))]
  have h4drop : (toLE4 n ++ (P ++ (I ++ more))).drop 4 = P ++ (I ++ more) := by
    rw [List.drop_append_of_le_length (by rw [toLE4_length]),
      List.drop_eq_nil_of_le (le_of_eq (toLE4_length n))]
    simp
  have hsize : fromLE4 (serRead ⟨toLE4 n ++ (P ++ (I ++ more)), sched⟩ 4).1
      = n := by
    rw [h41]
    simp only [h4take]
    exact fromLE4_toLE4 n hn
  rw [hrun] at hstep
  have hp2 : p2 = p2x := congrArg Prod.fst hstep
  have hdopt : dopt = none := congrArg (fun x => x.2.1) hstep
  have hevs : evs = [Ev.evTimeout, Ev.evIncomplete buf.length
      (fromLE4 (serRead ⟨toLE4 n ++ (P ++ (I ++ more)), sched⟩ 4).1)] :=
    congrArg (fun x => x.2.2) hstep
  rw [hsize] at hevs hM
  have hklt : buf.length < n :=
    imgDataLoop_timeout_lt t0 n times []
      (serRead ⟨toLE4 n ++ (P ++ (I ++ more)), sched⟩ 4).2 buf p2x hM
  refine ⟨hdopt, buf.length, hklt, hevs, ?_⟩
  obtain ⟨k0, hbuf, hstr⟩ := imgDataLoop_consume t0 n times []
    (serRead ⟨toLE4 n ++ (P ++ (I ++ more)), sched⟩ 4).2
  rw [hM] at hbuf hstr
  simp only [AccResult.buf, AccResult.port, List.nil_append] at hbuf hstr
  rw [h42, h4drop] at hbuf hstr
  have hlen : ((P ++ (I ++ more)).take k0).length = buf.length := by
    rw [← hbuf]
  obtain ⟨_, hdk⟩ := take_exact (P ++ (I ++ more)) k0 buf.length hlen
  rw [hp2, hstr, hdk, List.drop_append_of_le_length (by omega)]

/-- Claim C10, witness: a concrete frame whose payload phase times out with
an empty buffer leaves the payload and identifier bytes in the stream. -/
theorem C10_timeout_leftover_witness :
    (none : Option Delivery) = none ∧
    ∃ k, k < 2 ∧
      ([Ev.evTimeout, Ev.evIncomplete 0 2] : List Ev) =
        [Ev.evTimeout, Ev.evIncomplete k 2] ∧
      (⟨[5, 5] ++ ([48, 49, 50, 51, 52, 53, 54, 55, 56, 57, 48, 49, 50] ++ []),
        []⟩ : Port).stream =
        [5, 5].drop k ++
          ([48, 49, 50, 51, 52, 53, 54, 55, 56, 57, 48, 49, 50] ++ []) :=
  C10_timeout_leftover (fun _ => true) 0 [6] 2 [5, 5]
    [48, 49, 50, 51, 52, 53, 54, 55, 56, 57, 48, 49, 50] [] []
    ⟨[5, 5] ++ ([48, 49, 50, 51, 52, 53, 54, 55, 56, 57, 48, 49, 50] ++ []),
      []⟩
    none [Ev.evTimeout, Ev.evIncomplete 0 2]
    (by decide) (by decide) (by decide) (by decide)

end ExpressDelivery
